import Mathlib

/-!
Verification of the starlight help-menu pagination layer.

The definitions below are a shallow embedding of the code in
`src/starlight/star_commands/help_command/view.py`,
`src/starlight/star_commands/help_command/command.py` and
`src/starlight/help_command/command.py`.  The base pagination classes
(`SimplePaginationView`, `ViewAuthor` in `starlight/star_commands/views/pagination.py`)
are part of this repository but are not under `src/`; the definitions that stand in
for them carry a doc comment starting with `Modelled from the spec:` and follow the
words of `spec.md` (sections 3, 4.1, 4.2).  `discord.utils.as_chunks` is an external
library helper; it is translated from its reference implementation (a generator that
yields lists of up to `max_size` items and raises `ValueError` for a non-positive
size).

Python strings are compared by Unicode code point; `pyStrLt` below is that
comparison on `String.data`, used to model `sorted(...)` and `list.sort(...)`.
-/

/-- An abstract command descriptor.  Only identity matters to the claims. -/
structure Cmd where
  name : String
deriving DecidableEq

/-- A category (cog) descriptor: its qualified name and optional description,
the two attributes the help views read (`qualified_name` / `__cog_name__` and
`description`). -/
structure Cog where
  qualified_name : String
  description : Option String
deriving DecidableEq

/-- Python string less-than: code-point lexicographic comparison, as used by
`sorted` and `list.sort` on the name keys. -/
def pyStrLt : List Char → List Char → Bool
  | [], [] => false
  | [], _ :: _ => true
  | _ :: _, [] => false
  | a :: as, b :: bs =>
    if a.toNat < b.toNat then true
    else if b.toNat < a.toNat then false
    else pyStrLt as bs

/-- Python string less-or-equal, derived from `pyStrLt`. -/
def pyStrLe (a b : List Char) : Bool := !(pyStrLt b a)

/-- Translation of the chunk generator backing `discord.utils.as_chunks`
(`_chunk` in discord.py): repeatedly emit the next `n` items; the final chunk may
be shorter; an empty input yields no chunks.  The first argument is fuel, always
instantiated with the length of the list (each step consumes at least one item). -/
def chunkGo {α : Type} : Nat → List α → Nat → List (List α)
  | 0, _, _ => []
  | _ + 1, [], _ => []
  | fuel + 1, x :: xs, n => (x :: xs.take (n - 1)) :: chunkGo fuel (xs.drop (n - 1)) n

/-- The chunk list produced by `discord.utils.as_chunks(items, n)` once the size
guard has passed. -/
def chunkList {α : Type} (l : List α) (n : Nat) : List (List α) :=
  chunkGo l.length l n

/-- `discord.utils.as_chunks`: raises `ValueError` for a non-positive chunk size,
otherwise produces the chunks.  Used by `HelpMenuProvider.provide_cog_view`,
`HelpMenuBot._paginate_cogs` and `HelpPaginateBot.get_cog_page`. -/
def as_chunks {α : Type} (l : List α) (n : Nat) : Except String (List (List α)) :=
  if n = 0 then Except.error "chunk sizes must be greater than 0"
  else Except.ok (chunkList l n)

/-- Modelled from the spec: `SimplePaginationView`
(starlight/star_commands/views/pagination.py) is not under src/.  Per spec
section 3 (PageSet invariant) and section 4.1, a view over zero items still
holds one empty page, so the view renders an empty state instead of erroring. -/
def normalizePages {α : Type} (pages : List (List α)) : List (List α) :=
  match pages with
  | [] => [[]]
  | ps => ps

/-- The page set a pagination view holds over `items` with the configured
per-page size: the chunks of `items`, normalized to one empty page when empty. -/
def pageSet {α : Type} (items : List α) (page_size : Nat) : List (List α) :=
  normalizePages (chunkList items page_size)

/-- A field of a rendered embed (name, value, inline flag). -/
structure EmbedField where
  name : String
  value : String
  inline : Bool
deriving DecidableEq

/-- A structured content block (`discord.Embed`): the parts the help command
sets — title, description, color, footer and fields. -/
structure Embed where
  title : Option String
  description : Option String
  color : Nat
  footer : Option String
  fields : List EmbedField
deriving DecidableEq

/-- A value inside the keyword mapping handed to the transport
(`discord.Message.edit` keyword arguments). -/
inductive TransportValue where
  | embedValue (e : Embed)
  | strValue (s : String)
deriving DecidableEq

/-- The three shapes a render callback may return
(`Union[discord.Embed, Dict[str, Any], str]`). -/
inductive FormatReturn where
  | embed (e : Embed)
  | text (s : String)
  | mapping (kwargs : List (String × TransportValue))
deriving DecidableEq

/-- Translation of `MenuHelpCommand.__normalized_kwargs`
(star_commands/help_command/command.py lines 215-221 and
help_command/command.py lines 89-95, which are identical): a dict passes
through unchanged, an `Embed` is wrapped under the `embed` keyword, anything
else (a plain string) is wrapped under the `content` keyword. -/
def normalized_kwargs : FormatReturn → List (String × TransportValue)
  | FormatReturn.mapping m => m
  | FormatReturn.embed e => [("embed", TransportValue.embedValue e)]
  | FormatReturn.text s => [("content", TransportValue.strValue s)]

/-- `MenuHelpCommand.form_bot_kwargs`: funnels the bot-page render result
through `normalized_kwargs`. -/
def form_bot_kwargs (format_bot_page_result : FormatReturn) : List (String × TransportValue) :=
  normalized_kwargs format_bot_page_result

/-- `MenuHelpCommand.form_command_detail_kwargs`: funnels the command-detail
render result through `normalized_kwargs`. -/
def form_command_detail_kwargs (r : FormatReturn) : List (String × TransportValue) :=
  normalized_kwargs r

/-- `MenuHelpCommand.form_group_detail_kwargs`: funnels the group-detail render
result through `normalized_kwargs`. -/
def form_group_detail_kwargs (r : FormatReturn) : List (String × TransportValue) :=
  normalized_kwargs r

/-- `MenuHelpCommand.form_error_detail_kwargs`: funnels the error-detail render
result through `normalized_kwargs`. -/
def form_error_detail_kwargs (r : FormatReturn) : List (String × TransportValue) :=
  normalized_kwargs r

/-- `MenuDropDown.get_cog_name` (view.py lines 85-90): the `__cog_name__` of the
cog, or the empty string when the cog is `None`. -/
def get_cog_name (cog : Option Cog) : String :=
  match cog with
  | some c => c.qualified_name
  | none => ""

/-- The label of `MenuDropDown.create_category_option` (view.py lines 67-83):
`getattr(cog, "qualified_name", None) or self.no_category` — the qualified name
unless the cog is `None` or its name is empty (Python `or` falls through on the
empty string), in which case the no-category placeholder. -/
def create_category_option_label (no_category : String) (cog : Option Cog) : String :=
  match cog with
  | none => no_category
  | some c => if c.qualified_name = "" then no_category else c.qualified_name

/-- `MenuHelpCommand.resolve_cog_name` (command.py lines 201-213): same
fall-through as the option label. -/
def resolve_cog_name (no_category : String) (cog : Option Cog) : String :=
  match cog with
  | none => no_category
  | some c => if c.qualified_name = "" then no_category else c.qualified_name

/-- The sort key relation used by `MenuDropDown.set_cogs` (view.py line 96):
`sorted(cogs, key=lambda cog: self.get_cog_name(cog))` compares the
`get_cog_name` strings. -/
def cog_sort_le (a b : Option Cog) : Prop :=
  pyStrLe (get_cog_name a).data (get_cog_name b).data = true

instance : DecidableRel cog_sort_le := fun _ _ =>
  inferInstanceAs (Decidable (_ = true))

/-- The order in which `MenuDropDown.set_cogs` (view.py lines 92-108) lays out
the cogs before creating the options: sorted ascending by `get_cog_name`.
Python `sorted` is a stable ascending sort; `insertionSort` with a total
relation models it. -/
def set_cogs_order (cogs : List (Option Cog)) : List (Option Cog) :=
  List.insertionSort cog_sort_le cogs

/-- The option labels of the dropdown after `set_cogs`: one option per cog in
sorted order, labelled by `create_category_option`. -/
def set_cogs_labels (no_category : String) (cogs : List (Option Cog)) : List String :=
  (set_cogs_order cogs).map (create_category_option_label no_category)

/-- The display ordering used by `MenuHelpCommand.format_bot_page`
(command.py line 421): `data.sort(key=lambda d: self.resolve_cog_name(d[0]))`. -/
def display_sort_le (no_category : String) (a b : Option Cog × List Cmd) : Prop :=
  pyStrLe (resolve_cog_name no_category a.1).data (resolve_cog_name no_category b.1).data = true

instance (no_category : String) : DecidableRel (display_sort_le no_category) := fun _ _ =>
  inferInstanceAs (Decidable (_ = true))

/-- The `data` list of `MenuHelpCommand.format_bot_page` after its sort
(command.py lines 420-421). -/
def format_bot_page_data (no_category : String) (mapping : List (Option Cog × List Cmd)) :
    List (Option Cog × List Cmd) :=
  List.insertionSort (display_sort_le no_category) mapping

/-- Configuration surface of `MenuHelpCommand` that the modelled renderers read. -/
structure HelpConfig where
  no_category : String
  no_documentation : String
  accent_color : Nat
  inline_fields : Bool
deriving DecidableEq

/-- `getattr(cog, "description", None) or self.no_documentation`
(command.py line 424). -/
def cog_description_or_default (no_documentation : String) (cog : Option Cog) : String :=
  match cog with
  | none => no_documentation
  | some c =>
    match c.description with
    | none => no_documentation
    | some d => if d = "" then no_documentation else d

/-- One embed field of `MenuHelpCommand.format_bot_page` (command.py
lines 422-426): name is the resolved cog name with the command count, value is
the cog description or the placeholder. -/
def cog_field (cfg : HelpConfig) (entry : Option Cog × List Cmd) : EmbedField :=
  { name := resolve_cog_name cfg.no_category entry.1 ++ " (`" ++ toString entry.2.length ++ "`)"
  , value := cog_description_or_default cfg.no_documentation entry.1
  , inline := cfg.inline_fields }

/-- `MenuHelpCommand.format_bot_page` (star_commands/help_command/command.py
lines 395-428): the front bot-help embed.  Title is fixed, the bot description
shows only on page 0, a page footer shows only when there is more than one
page, and one field per category is added in display-name sorted order. -/
def format_bot_page (cfg : HelpConfig) (bot_description : Option String)
    (current_page max_pages : Nat) (mapping : List (Option Cog × List Cmd)) : Embed :=
  { title := some "Help Command"
  , description := if current_page = 0 then bot_description else none
  , color := cfg.accent_color
  , footer :=
      if 1 < max_pages then
        some ("Page : " ++ toString (current_page + 1) ++ "/" ++ toString max_pages)
      else none
  , fields := (format_bot_page_data cfg.no_category mapping).map (cog_field cfg) }

/-- Transport-level side effects the view state machine can issue. -/
inductive Effect where
  | editPage (message : Option Nat) (page : Nat)
  | disableItems (message : Nat)
  | deleteMessage (message : Nat)
  | deferResponse
  | startView (message : Option Nat) (page : Nat)
deriving DecidableEq

/-- Whether an effect clears, deletes or strips the targeted message. -/
def Effect.is_destructive : Effect → Bool
  | Effect.disableItems _ => true
  | Effect.deleteMessage _ => true
  | _ => false

/-- The nested per-category pagination view (`HelpMenuCog`, view.py
lines 138-179, over the base `SimplePaginationView`): its page set, category,
current page, attached message and stopped flag. -/
structure HelpMenuCogView where
  data_source : List (List Cmd)
  cog : Option Cog
  current_page : Nat
  message : Option Nat
  is_stopped : Bool
deriving DecidableEq

/-- Modelled from the spec: `SimplePaginationView.stop`
(views/pagination.py, not under src/).  Per spec section 4.2, `stop` is
idempotent; when `on_stop` is true it best-effort edits the attached message to
disable the controls, and with no attached message or `on_stop=False` it issues
no transport effect. -/
def HelpMenuCogView.stop (v : HelpMenuCogView) (on_stop : Bool) :
    HelpMenuCogView × List Effect :=
  if v.is_stopped then (v, [])
  else
    ({ v with is_stopped := true },
      if on_stop then
        match v.message with
        | some m => [Effect.disableItems m]
        | none => []
      else [])

/-- The category-switchboard view (`HelpMenuBot`, view.py lines 182-310): the
full cog mapping, parent page state, attached message, drill-down visibility
flag, the nested view reference and the dropdown selection. -/
structure HelpMenuBotView where
  mapping : List (Option Cog × List Cmd)
  current_page : Nat
  max_pages : Nat
  message : Option Nat
  visible : Bool
  pagination_cog_view : Option HelpMenuCogView
  selected_cog : Option Cog
deriving DecidableEq

/-- Python dict lookup `self.__mapping[selected_cog]`: first matching key, or a
`KeyError` (`none`). -/
def lookup_mapping (mapping : List (Option Cog × List Cmd)) (key : Option Cog) :
    Option (List Cmd) :=
  match mapping with
  | [] => none
  | (cog, cmds) :: rest => if cog = key then some cmds else lookup_mapping rest key

/-- Modelled from the spec: `SimplePaginationView.change_page`
(views/pagination.py, not under src/).  Per spec section 4.2 it validates
`0 <= target_page < max_pages` (failing with `OutOfRange` otherwise), updates
`current_page` and edits the attached message with the rendered slice. -/
def HelpMenuBotView.change_page (st : HelpMenuBotView) (target : Nat) :
    Except String (HelpMenuBotView × List Effect) :=
  if target < st.max_pages then
    Except.ok ({ st with current_page := target }, [Effect.editPage st.message target])
  else Except.error "OutOfRange"

/-- `HelpMenuProvider.provide_cog_view` (view.py lines 479-502): chunk the cog
commands by `per_page` and build a `HelpMenuCog` view over the chunks (page set
normalized per the spec, see `normalizePages`), starting at page 0 with no
message attached yet. -/
def provide_cog_view (per_page : Nat) (cog : Option Cog) (cmds : List Cmd) :
    Except String HelpMenuCogView :=
  match as_chunks cmds per_page with
  | Except.error e => Except.error e
  | Except.ok chunks =>
    Except.ok
      { data_source := normalizePages chunks, cog := cog, current_page := 0
      , message := none, is_stopped := false }

/-- `HelpMenuBot.display_cog_help` (view.py lines 300-310): obtain the nested
view from the provider, store it in `_pagination_cog_view` and start it on the
shared original message (rendering its page 0). -/
def display_cog_help (per_page : Nat) (st : HelpMenuBotView) (cog : Option Cog)
    (cmds : List Cmd) : Except String (HelpMenuBotView × List Effect) :=
  match provide_cog_view per_page cog cmds with
  | Except.error e => Except.error e
  | Except.ok pag =>
    let pag := { pag with message := st.message }
    Except.ok ({ st with pagination_cog_view := some pag },
      [Effect.startView st.message 0])

/-- `HelpMenuBot.toggle_interface` (view.py lines 287-298): flip the drill-down
visibility.  When it becomes invisible, stop any nested view with
`on_stop=False`, clear the reference and re-render the parent at its stored
`current_page`.  When it becomes visible, defer the interaction and display the
selected category (`self.__mapping[selected_cog]`, a `KeyError` when absent). -/
def toggle_interface (per_page : Nat) (st : HelpMenuBotView) :
    Except String (HelpMenuBotView × List Effect) :=
  let visible := !st.visible
  let st1 := { st with visible := visible }
  if visible = false then
    match st1.pagination_cog_view with
    | some v =>
      let stopped := v.stop false
      let st2 := { st1 with pagination_cog_view := none }
      (match st2.change_page st2.current_page with
       | Except.ok (st3, effs) => Except.ok (st3, stopped.2 ++ effs)
       | Except.error e => Except.error e)
    | none =>
      match st1.change_page st1.current_page with
      | Except.ok (st3, effs) => Except.ok (st3, effs)
      | Except.error e => Except.error e
  else
    match lookup_mapping st1.mapping st1.selected_cog with
    | none => Except.error "KeyError"
    | some cmds =>
      match display_cog_help per_page st1 st1.selected_cog cmds with
      | Except.ok (st3, effs) => Except.ok (st3, Effect.deferResponse :: effs)
      | Except.error e => Except.error e

/-- `MenuHomeButton.callback` (view.py lines 132-135): on the nested view, null
the message reference (disabling the automatic item-disabling on stop), stop
the nested view (default `on_stop=True`), then toggle the parent interface. -/
def home_callback (per_page : Nat) (st : HelpMenuBotView) :
    Except String (HelpMenuBotView × List Effect) :=
  match st.pagination_cog_view with
  | none => Except.error "home button without a nested view"
  | some v =>
    let v1 := { v with message := none }
    let stopped := v1.stop true
    let st1 := { st with pagination_cog_view := some stopped.1 }
    match toggle_interface per_page st1 with
    | Except.ok (st2, effs) => Except.ok (st2, stopped.2 ++ effs)
    | Except.error e => Except.error e

/-- The five named control roles of the base pagination view (spec section 3,
ControlBinding). -/
inductive BtnRole where
  | start_button
  | previous_button
  | stop_button
  | next_button
  | end_button
deriving DecidableEq

/-- A button: its appearance (`_underlying`, an abstract token covering label,
emoji and style) and its optional row. -/
structure Btn where
  underlying : Nat
  row : Option Nat
deriving DecidableEq

/-- The interactive-item state of a pagination view: the ordered children list
(which roles are attached) and the per-role button object. -/
structure PagerButtons where
  items : List BtnRole
  btn : BtnRole → Btn

/-- `getattr(self, key, None)` restricted to the five control-role attributes:
an unknown key yields `None`. -/
def getattr_button (key : String) : Option BtnRole :=
  if key = "start_button" then some BtnRole.start_button
  else if key = "previous_button" then some BtnRole.previous_button
  else if key = "stop_button" then some BtnRole.stop_button
  else if key = "next_button" then some BtnRole.next_button
  else if key = "end_button" then some BtnRole.end_button
  else none

/-- The attribute name of each control role. -/
def role_key : BtnRole → String
  | BtnRole.start_button => "start_button"
  | BtnRole.previous_button => "previous_button"
  | BtnRole.stop_button => "stop_button"
  | BtnRole.next_button => "next_button"
  | BtnRole.end_button => "end_button"

/-- `btn._underlying = value._underlying; if value.row is not None: btn.row =
value.row` — the button keeps its identity (callback) but takes the descriptor
appearance and, when given, its row. -/
def merge_button (old new : Btn) : Btn :=
  { underlying := new.underlying
  , row :=
      match new.row with
      | some r => some r
      | none => old.row }

/-- One iteration of `HelpMenuCog._manipulate_buttons` (view.py lines 161-176):
unknown keys are skipped; a known role is removed from the children; `None`
leaves it removed; a descriptor updates the button in place and re-adds it. -/
def cog_manipulate_entry (st : PagerButtons) (key : String) (value : Option Btn) :
    PagerButtons :=
  match getattr_button key with
  | none => st
  | some role =>
    let st1 : PagerButtons := { st with items := st.items.erase role }
    match value with
    | none => st1
    | some v =>
      { items := st1.items ++ [role]
      , btn := Function.update st1.btn role (merge_button (st1.btn role) v) }

/-- `HelpMenuCog._manipulate_buttons` over the whole configuration mapping. -/
def cog_manipulate_buttons (st : PagerButtons) (source : List (String × Option Btn)) :
    PagerButtons :=
  source.foldl (fun s p => cog_manipulate_entry s p.1 p.2) st

/-- `HelpMenuBot.navigation_buttons` (view.py line 203). -/
def bot_navigation_buttons : List String := ["previous_button", "next_button"]

/-- The removal list of `HelpMenuBot._manipulate_buttons` (view.py line 216):
stop, start and end buttons plus the navigation (required) buttons. -/
def bot_remove_buttons : List String :=
  ["stop_button", "start_button", "end_button"] ++ bot_navigation_buttons

/-- One iteration of `HelpMenuBot._manipulate_buttons` (view.py lines 214-234):
unknown keys are skipped; a key in the removal list has its button removed;
`None` leaves it removed; a descriptor re-adds (with merged appearance) only
the navigation roles — other roles stay removed even with a descriptor. -/
def bot_manipulate_entry (st : PagerButtons) (key : String) (value : Option Btn) :
    PagerButtons :=
  match getattr_button key with
  | none => st
  | some role =>
    let st1 : PagerButtons :=
      if key ∈ bot_remove_buttons then { st with items := st.items.erase role } else st
    match value with
    | none => st1
    | some v =>
      if key ∈ bot_navigation_buttons then
        { items := st1.items ++ [role]
        , btn := Function.update st1.btn role (merge_button (st1.btn role) v) }
      else st1

/-- `HelpMenuBot._manipulate_buttons` over the whole configuration mapping. -/
def bot_manipulate_buttons (st : PagerButtons) (source : List (String × Option Btn)) :
    PagerButtons :=
  source.foldl (fun s p => bot_manipulate_entry s p.1 p.2) st

/-- `HelpMenuBot._rem_navigation` (view.py lines 236-245): when there is more
than one page, keep everything; otherwise remove the navigation buttons. -/
def rem_navigation (max_pages : Nat) (st : PagerButtons) : PagerButtons :=
  if 1 < max_pages then st
  else
    bot_navigation_buttons.foldl
      (fun s key =>
        match getattr_button key with
        | none => s
        | some role => { s with items := s.items.erase role })
      st

/-- Modelled from the spec: the base `SimplePaginationView`
(views/pagination.py, not under src/) attaches the five control roles of spec
section 3 as its children; their stock appearance is abstract here (token 0, no
explicit row). -/
def initial_buttons : PagerButtons :=
  { items :=
      [BtnRole.start_button, BtnRole.previous_button, BtnRole.stop_button,
        BtnRole.next_button, BtnRole.end_button]
  , btn := fun _ => { underlying := 0, row := none } }

/-- The default `MenuHelpCommand.pagination_buttons` mapping (command.py
lines 96-106): all five roles mapped to emoji buttons on row 1; the distinct
appearance tokens 1-5 stand for the five emoji. -/
def default_pagination_buttons : List (String × Option Btn) :=
  [ ("start_button", some { underlying := 1, row := some 1 })
  , ("previous_button", some { underlying := 2, row := some 1 })
  , ("stop_button", some { underlying := 3, row := some 1 })
  , ("next_button", some { underlying := 4, row := some 1 })
  , ("end_button", some { underlying := 5, row := some 1 }) ]

/-- The page count of `HelpMenuBot` over its cog list:
`_paginate_cogs` (view.py lines 252-253) chunks the cogs by `cog_per_page` and
the base view derives `max_pages` from the (normalized) page set. -/
def bot_max_pages (cogs : List (Option Cog)) (cog_per_page : Nat) : Nat :=
  (pageSet cogs cog_per_page).length

/-- The button state of a freshly constructed `HelpMenuBot` (view.py
lines 199-212) under the default button configuration: `_manipulate_buttons`
runs over `help_command.pagination_buttons`, then `_rem_navigation` runs with
the computed page count.  The dropdown is only added later, on first render. -/
def help_menu_bot_buttons (cogs : List (Option Cog)) (cog_per_page : Nat) : PagerButtons :=
  rem_navigation (bot_max_pages cogs cog_per_page)
    (bot_manipulate_buttons initial_buttons default_pagination_buttons)

/-- The state of `HelpPaginateBot` (view.py lines 571-633) that the cog
navigation buttons read: the mapping, the cog key list (`cog_pages`) and the
current cog index (a Python int). -/
structure HelpPaginateBotState where
  mapping : List (Option Cog × List Cmd)
  cog_pages : List (Option Cog)
  current_cog_page : Int
deriving DecidableEq

/-- `HelpPaginateBot.get_cog_page` (view.py lines 594-598): look up the cog at
`page` and chunk its commands by `per_page`. -/
def get_cog_page (per_page : Nat) (st : HelpPaginateBotState) (page : Nat) :
    Except String (List (List Cmd)) :=
  match st.cog_pages[page]? with
  | none => Except.error "IndexError"
  | some cog =>
    match lookup_mapping st.mapping cog with
    | none => Except.error "KeyError"
    | some cmds => as_chunks cmds per_page

/-- The target index computed by `HelpPaginateBot.previous_cog` (view.py
line 611): `max(self.current_cog_page - 1, 0)`. -/
def previous_cog_target (st : HelpPaginateBotState) : Int :=
  max (st.current_cog_page - 1) 0

/-- The target index computed by `HelpPaginateBot.next_cog` (view.py
line 620): `min(self.current_cog_page + 1, len(self.cog_pages) - 1)`. -/
def next_cog_target (st : HelpPaginateBotState) : Int :=
  min (st.current_cog_page + 1) ((st.cog_pages.length : Int) - 1)

/-- The index update of `HelpPaginateBot.switch_cog` (view.py lines 603-607):
`self.current_cog_page = page` (it then re-labels and swaps the data source,
which does not touch the index). -/
def switch_cog (st : HelpPaginateBotState) (page : Int) : HelpPaginateBotState :=
  { st with current_cog_page := page }

/-- `MenuHelpCommand.cog_filter_commands` (star_commands/help_command/command.py
lines 285-305) and the equivalent generator `MenuHelpCommand._filter_commands`
(help_command/command.py lines 109-115): keep, per category, the filtered
command list, skipping categories whose filtered list is empty.
`filter_fn` stands for the external `HelpCommand.filter_commands`. -/
def cog_filter_commands (filter_fn : List Cmd → List Cmd)
    (mapping : List (Option Cog × List Cmd)) : List (Option Cog × List Cmd) :=
  match mapping with
  | [] => []
  | (cog, cmds) :: rest =>
    let filtered := filter_fn cmds
    if filtered.isEmpty then cog_filter_commands filter_fn rest
    else (cog, filtered) :: cog_filter_commands filter_fn rest

/-- The nested view built over an empty category: one empty page, starting at
page 0 on the shared message. -/
def empty_cog_view (cog : Option Cog) (message : Option Nat) : HelpMenuCogView :=
  { data_source := [[]], cog := cog, current_page := 0
  , message := message, is_stopped := false }

/-- A concrete nested drill-down view, used to evaluate the switchboard
theorems on a closed input. -/
def sample_nested_view : HelpMenuCogView :=
  { data_source := [[]], cog := none, current_page := 0
  , message := some 0, is_stopped := false }

/-- A concrete switchboard state mid drill-down: the parent sits on page 1 of
3 and the nested view is attached to the shared message 0. -/
def sample_bot_state : HelpMenuBotView :=
  { mapping := [(none, [])], current_page := 1, max_pages := 3, message := some 0
  , visible := true, pagination_cog_view := some sample_nested_view
  , selected_cog := none }

/-- A concrete front-page switchboard state whose selected category exists but
has zero commands. -/
def sample_bot_front : HelpMenuBotView :=
  { mapping := [(none, [])], current_page := 0, max_pages := 1, message := some 0
  , visible := false, pagination_cog_view := none, selected_cog := none }

/-! ## Helper lemmas -/

theorem pyStrLt_false_trans : ∀ (a b c : List Char),
    pyStrLt b a = false → pyStrLt c b = false → pyStrLt c a = false := by
  intro a
  induction a with
  | nil =>
    intro b c _ _
    cases c <;> simp [pyStrLt]
  | cons x as ih =>
    intro b c h1 h2
    cases b with
    | nil => simp [pyStrLt] at h1
    | cons y bs =>
      cases c with
      | nil => simp [pyStrLt] at h2
      | cons z cs =>
        simp only [pyStrLt] at h1 h2 ⊢
        split_ifs at h1 h2 ⊢ <;>
          first
          | rfl
          | exact Bool.noConfusion h1
          | exact Bool.noConfusion h2
          | omega
          | exact ih bs cs h1 h2

theorem pyStrLt_asymm : ∀ (a b : List Char),
    pyStrLt a b = true → pyStrLt b a = false := by
  intro a
  induction a with
  | nil =>
    intro b _
    cases b <;> simp [pyStrLt]
  | cons x as ih =>
    intro b h
    cases b with
    | nil => simp [pyStrLt] at h
    | cons y bs =>
      simp only [pyStrLt] at h ⊢
      split_ifs at h ⊢ <;>
        first
        | rfl
        | exact Bool.noConfusion h
        | omega
        | exact ih bs h

theorem pyStrLe_total (a b : List Char) : pyStrLe a b = true ∨ pyStrLe b a = true := by
  unfold pyStrLe
  cases h : pyStrLt b a with
  | false => exact Or.inl rfl
  | true => exact Or.inr (by simp [pyStrLt_asymm b a h])

theorem pyStrLe_trans (a b c : List Char) (h1 : pyStrLe a b = true)
    (h2 : pyStrLe b c = true) : pyStrLe a c = true := by
  unfold pyStrLe at h1 h2 ⊢
  cases hba : pyStrLt b a with
  | true => rw [hba] at h1; simp at h1
  | false =>
    cases hcb : pyStrLt c b with
    | true => rw [hcb] at h2; simp at h2
    | false =>
      rw [pyStrLt_false_trans a b c hba hcb]
      rfl

theorem chunkGo_flatten {α : Type} : ∀ (fuel : Nat) (l : List α) (n : Nat),
    l.length ≤ fuel → (chunkGo fuel l n).flatten = l := by
  intro fuel
  induction fuel with
  | zero =>
    intro l n h
    have : l = [] := List.eq_nil_of_length_eq_zero (Nat.le_zero.mp h)
    subst this
    rfl
  | succ fuel ih =>
    intro l n h
    cases l with
    | nil => rfl
    | cons x xs =>
      have hd : (xs.drop (n - 1)).length ≤ fuel := by
        have := List.length_drop (n - 1) xs
        simp only [List.length_cons] at h
        omega
      simp only [chunkGo, List.flatten_cons, ih (xs.drop (n - 1)) n hd, List.cons_append,
        List.take_append_drop]

theorem chunkGo_mem_length {α : Type} : ∀ (fuel : Nat) (l : List α) (n : Nat),
    1 ≤ n → ∀ p ∈ chunkGo fuel l n, p.length ≤ n := by
  intro fuel
  induction fuel with
  | zero =>
    intro l n _ p hp
    simp [chunkGo] at hp
  | succ fuel ih =>
    intro l n hn p hp
    cases l with
    | nil => simp [chunkGo] at hp
    | cons x xs =>
      simp only [chunkGo, List.mem_cons] at hp
      rcases hp with hp | hp
      · subst hp
        have := List.length_take (n - 1) xs
        simp only [List.length_cons]
        omega
      · exact ih (xs.drop (n - 1)) n hn p hp

theorem chunkGo_count {α : Type} : ∀ (fuel : Nat) (l : List α) (n : Nat),
    1 ≤ n → l.length ≤ fuel → l ≠ [] →
    (chunkGo fuel l n).length = (l.length - 1) / n + 1 := by
  intro fuel
  induction fuel with
  | zero =>
    intro l n _ h hne
    exact absurd (List.eq_nil_of_length_eq_zero (Nat.le_zero.mp h)) hne
  | succ fuel ih =>
    intro l n hn h hne
    cases l with
    | nil => exact absurd rfl hne
    | cons x xs =>
      by_cases hxs : xs.length ≤ n - 1
      · have hdrop : xs.drop (n - 1) = [] := by
          apply List.eq_nil_of_length_eq_zero
          have := List.length_drop (n - 1) xs
          omega
        have hdiv : xs.length / n = 0 := Nat.div_eq_of_lt (by omega)
        cases fuel with
        | zero => simp [chunkGo, hdrop, List.length_cons, hdiv]
        | succ fuel => simp [chunkGo, hdrop, List.length_cons, hdiv]
      · have hdl : (xs.drop (n - 1)).length = xs.length - (n - 1) := List.length_drop _ _
        have hrec : (chunkGo fuel (xs.drop (n - 1)) n).length
            = ((xs.drop (n - 1)).length - 1) / n + 1 := by
          apply ih (xs.drop (n - 1)) n hn
          · simp only [List.length_cons] at h
            omega
          · intro hnil
            rw [hnil] at hdl
            simp at hdl
            omega
        have harith : (xs.length - (n - 1) - 1) / n + 1 = xs.length / n := by
          have hk : xs.length - (n - 1) - 1 = xs.length - n := by omega
          have hsplit : xs.length = (xs.length - n) + n := by omega
          rw [hk]
          conv_rhs => rw [hsplit]
          rw [Nat.add_div_right _ (by omega)]
        simp only [chunkGo, List.length_cons, Nat.add_sub_cancel, hrec, hdl]
        omega

theorem chunkList_flatten {α : Type} (l : List α) (n : Nat) : (chunkList l n).flatten = l :=
  chunkGo_flatten l.length l n (Nat.le_refl _)

theorem chunkList_mem_length {α : Type} (l : List α) (n : Nat) (hn : 1 ≤ n) :
    ∀ p ∈ chunkList l n, p.length ≤ n :=
  chunkGo_mem_length l.length l n hn

theorem chunkList_count {α : Type} (l : List α) (n : Nat) (hn : 1 ≤ n) (hne : l ≠ []) :
    (chunkList l n).length = (l.length - 1) / n + 1 :=
  chunkGo_count l.length l n hn (Nat.le_refl _) hne

theorem chunkList_nil {α : Type} (n : Nat) : chunkList ([] : List α) n = [] := rfl

theorem chunkList_ne_nil {α : Type} (l : List α) (n : Nat) (hne : l ≠ []) :
    chunkList l n ≠ [] := by
  cases l with
  | nil => exact absurd rfl hne
  | cons x xs => simp [chunkList, chunkGo]

theorem normalizePages_of_ne_nil {α : Type} (ps : List (List α)) (h : ps ≠ []) :
    normalizePages ps = ps := by
  cases ps with
  | nil => exact absurd rfl h
  | cons q qs => rfl

theorem pageSet_of_ne_nil {α : Type} (l : List α) (n : Nat) (h : l ≠ []) :
    pageSet l n = chunkList l n :=
  normalizePages_of_ne_nil _ (chunkList_ne_nil l n h)

theorem pageSet_length {α : Type} (l : List α) (n : Nat) (hn : 1 ≤ n) :
    (pageSet l n).length = if l.isEmpty then 1 else (l.length + n - 1) / n := by
  cases l with
  | nil => rfl
  | cons x xs =>
    have hne : (x :: xs : List α) ≠ [] := by simp
    rw [pageSet_of_ne_nil _ _ hne, chunkList_count (x :: xs) n hn hne]
    have hceil : ((x :: xs : List α).length - 1) / n + 1
        = ((x :: xs : List α).length + n - 1) / n := by
      have hsplit : (x :: xs : List α).length + n - 1 = ((x :: xs : List α).length - 1) + n := by
        simp only [List.length_cons]
        omega
      rw [hsplit, Nat.add_div_right _ (by omega)]
    rw [hceil]
    simp

/-! ## Claim theorems -/

/-- C1: for every item list and every page size at least 1, the chunking used
by `provide_cog_view`, `_paginate_cogs` and `get_cog_page` succeeds, and the
resulting page set has pages of length at most `page_size`, concatenates back
to the original items in order, and has `ceil(len(items)/page_size)` pages, or
one (empty) page when the items are empty. -/
theorem paginate_pages_spec {α : Type} (items : List α) (page_size : Nat)
    (h : 1 ≤ page_size) :
    as_chunks items page_size = Except.ok (chunkList items page_size)
    ∧ (∀ p ∈ pageSet items page_size, p.length ≤ page_size)
    ∧ (pageSet items page_size).flatten = items
    ∧ (pageSet items page_size).length
        = (if items.isEmpty then 1 else (items.length + page_size - 1) / page_size) := by
  refine ⟨?_, ?_, ?_, pageSet_length items page_size h⟩
  · unfold as_chunks
    simp only [if_neg (by omega : ¬ page_size = 0)]
  · intro p hp
    cases hl : items with
    | nil =>
      subst hl
      simp only [pageSet, chunkList_nil, normalizePages, List.mem_singleton] at hp
      subst hp
      simp
    | cons x xs =>
      subst hl
      rw [pageSet_of_ne_nil _ _ (by simp)] at hp
      exact chunkList_mem_length (x :: xs) page_size h p hp
  · cases hl : items with
    | nil => rfl
    | cons x xs =>
      subst hl
      rw [pageSet_of_ne_nil _ _ (by simp), chunkList_flatten]

/-- Witness for C1 at the spec scenario: 13 items with page size 6 give pages
of sizes 6, 6, 1. -/
theorem paginate_pages_spec_witness :
    1 ≤ 6
    ∧ (as_chunks (List.range 13) 6 = Except.ok (chunkList (List.range 13) 6)
      ∧ (∀ p ∈ pageSet (List.range 13) 6, p.length ≤ 6)
      ∧ (pageSet (List.range 13) 6).flatten = List.range 13
      ∧ (pageSet (List.range 13) 6).length
          = (if (List.range 13).isEmpty then 1 else ((List.range 13).length + 6 - 1) / 6)) :=
  ⟨by decide, paginate_pages_spec (List.range 13) 6 (by decide)⟩

/-- C2: the formatting adapter `__normalized_kwargs` wraps a structured content
block under the `embed` keyword, wraps a plain string under the `content`
keyword, passes a mapping through unchanged, and all four `form_*_kwargs`
render paths funnel through it. -/
theorem normalized_kwargs_spec :
    (∀ e : Embed, normalized_kwargs (FormatReturn.embed e)
      = [("embed", TransportValue.embedValue e)])
    ∧ (∀ s : String, normalized_kwargs (FormatReturn.text s)
      = [("content", TransportValue.strValue s)])
    ∧ (∀ m : List (String × TransportValue), normalized_kwargs (FormatReturn.mapping m) = m)
    ∧ (∀ r : FormatReturn,
        form_bot_kwargs r = normalized_kwargs r
        ∧ form_command_detail_kwargs r = normalized_kwargs r
        ∧ form_group_detail_kwargs r = normalized_kwargs r
        ∧ form_error_detail_kwargs r = normalized_kwargs r) :=
  ⟨fun _ => rfl, fun _ => rfl, fun _ => rfl, fun _ => ⟨rfl, rfl, rfl, rfl⟩⟩

/-- C5 counterexample: with a cog named `Alpha` and the no-category entry, the
dropdown options of `set_cogs` are labelled `No Category` then `Alpha` — not
ascending by display name.  The sort key of the no-category entry is the empty
string, not the placeholder, so the claim fails as stated. -/
theorem dropdown_labels_not_display_sorted :
    ¬ ((set_cogs_labels "No Category"
          [some { qualified_name := "Alpha", description := none }, none]).Pairwise
        (fun a b => pyStrLe a.data b.data = true)) := by
  decide

/-- C5 amended: the categories are sorted before rendering, but `set_cogs`
sorts by the `get_cog_name` key — the qualified name, with the empty string
(not the no-category placeholder) for the `None` category — while
`format_bot_page` sorts its fields by display name (`resolve_cog_name`).  The
dropdown option labels and the embed fields follow exactly those orders. -/
theorem sort_before_render_amended (no_category : String) (cogs : List (Option Cog))
    (cfg : HelpConfig) (bot_description : Option String) (current_page max_pages : Nat)
    (mapping : List (Option Cog × List Cmd)) :
    List.Sorted cog_sort_le (set_cogs_order cogs)
    ∧ set_cogs_labels no_category cogs
        = (set_cogs_order cogs).map (create_category_option_label no_category)
    ∧ List.Sorted (display_sort_le cfg.no_category) (format_bot_page_data cfg.no_category mapping)
    ∧ (format_bot_page cfg bot_description current_page max_pages mapping).fields
        = (format_bot_page_data cfg.no_category mapping).map (cog_field cfg) := by
  refine ⟨?_, rfl, ?_, rfl⟩
  · haveI : IsTotal (Option Cog) cog_sort_le :=
      ⟨fun a b => pyStrLe_total (get_cog_name a).data (get_cog_name b).data⟩
    haveI : IsTrans (Option Cog) cog_sort_le :=
      ⟨fun a b c h1 h2 => pyStrLe_trans _ _ _ h1 h2⟩
    exact List.sorted_insertionSort cog_sort_le cogs
  · haveI : IsTotal (Option Cog × List Cmd) (display_sort_le cfg.no_category) :=
      ⟨fun a b => pyStrLe_total _ _⟩
    haveI : IsTrans (Option Cog × List Cmd) (display_sort_le cfg.no_category) :=
      ⟨fun a b c h1 h2 => pyStrLe_trans _ _ _ h1 h2⟩
    exact List.sorted_insertionSort (display_sort_le cfg.no_category) mapping

/-- C3: pressing the home control stops the nested view and re-renders the
parent at its stored `current_page` (here left untouched by the whole
transition), not at page 0: the single transport edit targets exactly
`st.current_page`. -/
theorem home_restores_parent_page (per_page : Nat) (st : HelpMenuBotView)
    (v : HelpMenuCogView) (hvis : st.visible = true)
    (hnest : st.pagination_cog_view = some v)
    (hpage : st.current_page < st.max_pages) :
    home_callback per_page st
      = Except.ok ({ st with visible := false, pagination_cog_view := none },
          [Effect.editPage st.message st.current_page]) := by
  obtain ⟨mapping, cp, mp, msg, visible, pcv, sel⟩ := st
  obtain ⟨ds, cog, vcp, vmsg, vstop⟩ := v
  simp only at hvis hnest hpage
  subst hvis
  subst hnest
  cases vstop <;>
    simp [home_callback, toggle_interface, HelpMenuCogView.stop,
      HelpMenuBotView.change_page, hpage]

/-- Witness for C3: on the sample drill-down state (parent on page 1 of 3) the
home press re-renders page 1. -/
theorem home_restores_parent_page_witness :
    (sample_bot_state.visible = true
      ∧ sample_bot_state.pagination_cog_view = some sample_nested_view
      ∧ sample_bot_state.current_page < sample_bot_state.max_pages)
    ∧ home_callback 6 sample_bot_state
      = Except.ok ({ sample_bot_state with visible := false, pagination_cog_view := none },
          [Effect.editPage sample_bot_state.message sample_bot_state.current_page]) :=
  ⟨⟨rfl, rfl, by decide⟩,
    home_restores_parent_page 6 sample_bot_state sample_nested_view rfl rfl (by decide)⟩

/-- C4: when the drill-down transitions to invisible (dropdown toggle or home
press) the nested view is stopped — with `on_stop=False` on the toggle path,
issuing no transport effect — the nested-view reference is cleared, and the
whole transition issues only the parent re-render edit: no disable-items and no
delete touches the shared message.  On the home path the nested message
reference is nulled first, so even its `on_stop=True` stop issues nothing. -/
theorem invisible_transition_frame (per_page : Nat) (st : HelpMenuBotView)
    (v : HelpMenuCogView) (hvis : st.visible = true)
    (hnest : st.pagination_cog_view = some v)
    (hpage : st.current_page < st.max_pages) :
    toggle_interface per_page st
      = Except.ok ({ st with visible := false, pagination_cog_view := none },
          [Effect.editPage st.message st.current_page])
    ∧ (v.stop false).1.is_stopped = true
    ∧ (v.stop false).2 = []
    ∧ (({ v with message := none } : HelpMenuCogView).stop true).2 = []
    ∧ home_callback per_page st
      = Except.ok ({ st with visible := false, pagination_cog_view := none },
          [Effect.editPage st.message st.current_page])
    ∧ ([Effect.editPage st.message st.current_page].all fun e => !e.is_destructive) = true := by
  obtain ⟨mapping, cp, mp, msg, visible, pcv, sel⟩ := st
  obtain ⟨ds, cog, vcp, vmsg, vstop⟩ := v
  simp only at hvis hnest hpage
  subst hvis
  subst hnest
  cases vstop <;>
    simp [home_callback, toggle_interface, HelpMenuCogView.stop,
      HelpMenuBotView.change_page, hpage, Effect.is_destructive]

/-- Witness for C4 on the sample drill-down state. -/
theorem invisible_transition_frame_witness :
    (sample_bot_state.visible = true
      ∧ sample_bot_state.pagination_cog_view = some sample_nested_view
      ∧ sample_bot_state.current_page < sample_bot_state.max_pages)
    ∧ (toggle_interface 6 sample_bot_state
        = Except.ok ({ sample_bot_state with visible := false, pagination_cog_view := none },
            [Effect.editPage sample_bot_state.message sample_bot_state.current_page])
      ∧ (sample_nested_view.stop false).1.is_stopped = true
      ∧ (sample_nested_view.stop false).2 = []
      ∧ (({ sample_nested_view with message := none } : HelpMenuCogView).stop true).2 = []
      ∧ home_callback 6 sample_bot_state
        = Except.ok ({ sample_bot_state with visible := false, pagination_cog_view := none },
            [Effect.editPage sample_bot_state.message sample_bot_state.current_page])
      ∧ ([Effect.editPage sample_bot_state.message sample_bot_state.current_page].all
          fun e => !e.is_destructive) = true) :=
  ⟨⟨rfl, rfl, by decide⟩,
    invisible_transition_frame 6 sample_bot_state sample_nested_view rfl rfl (by decide)⟩

/-- C8: selecting a category whose command list is empty completes without
error: the dropdown path defers the interaction and starts a nested view over
one empty page (`data_source = [[]]`), rendering an empty state. -/
theorem empty_category_renders (per_page : Nat) (st : HelpMenuBotView)
    (hper : 1 ≤ per_page) (hvis : st.visible = false)
    (hsel : lookup_mapping st.mapping st.selected_cog = some []) :
    toggle_interface per_page st
      = Except.ok
          ({ st with
              visible := true,
              pagination_cog_view := some (empty_cog_view st.selected_cog st.message) },
            [Effect.deferResponse, Effect.startView st.message 0]) := by
  obtain ⟨mapping, cp, mp, msg, visible, pcv, sel⟩ := st
  simp only at hvis hsel ⊢
  subst hvis
  have hz : ¬ per_page = 0 := by omega
  simp [toggle_interface, hsel, display_cog_help, provide_cog_view, as_chunks, hz,
    chunkList, chunkGo, normalizePages, empty_cog_view]

/-- Witness for C8: the sample front state has the no-category entry mapped to
zero commands; selecting it starts a one-empty-page nested view. -/
theorem empty_category_renders_witness :
    (1 ≤ 6
      ∧ sample_bot_front.visible = false
      ∧ lookup_mapping sample_bot_front.mapping sample_bot_front.selected_cog = some [])
    ∧ toggle_interface 6 sample_bot_front
      = Except.ok
          ({ sample_bot_front with
              visible := true,
              pagination_cog_view :=
                some (empty_cog_view sample_bot_front.selected_cog sample_bot_front.message) },
            [Effect.deferResponse, Effect.startView sample_bot_front.message 0]) :=
  ⟨⟨by decide, rfl, by decide⟩,
    empty_category_renders 6 sample_bot_front (by decide) rfl (by decide)⟩

/-- C7: with the cog index in range, the two navigation handlers clamp before
requesting: `previous_cog` at index 0 requests 0, `next_cog` at the last index
requests that same index, and both targets always lie in
`[0, len(cog_pages))`; `switch_cog` stores exactly the requested target. -/
theorem cog_nav_targets_clamped (st : HelpPaginateBotState)
    (h1 : 1 ≤ st.cog_pages.length) (h2 : 0 ≤ st.current_cog_page)
    (h3 : st.current_cog_page < (st.cog_pages.length : Int)) :
    0 ≤ previous_cog_target st
    ∧ previous_cog_target st < (st.cog_pages.length : Int)
    ∧ 0 ≤ next_cog_target st
    ∧ next_cog_target st < (st.cog_pages.length : Int)
    ∧ (switch_cog st (previous_cog_target st)).current_cog_page = previous_cog_target st
    ∧ (switch_cog st (next_cog_target st)).current_cog_page = next_cog_target st
    ∧ previous_cog_target { st with current_cog_page := 0 } = 0
    ∧ next_cog_target { st with current_cog_page := (st.cog_pages.length : Int) - 1 }
        = (st.cog_pages.length : Int) - 1 := by
  unfold previous_cog_target next_cog_target switch_cog
  refine ⟨by omega, by omega, by omega, by omega, rfl, rfl, by simp, by simp⟩

/-- Witness for C7 on a three-category state sitting on the last index. -/
theorem cog_nav_targets_clamped_witness :
    (1 ≤ ({ mapping := [], cog_pages := [none, none, none], current_cog_page := 2 }
        : HelpPaginateBotState).cog_pages.length
      ∧ 0 ≤ ({ mapping := [], cog_pages := [none, none, none], current_cog_page := 2 }
        : HelpPaginateBotState).current_cog_page
      ∧ ({ mapping := [], cog_pages := [none, none, none], current_cog_page := 2 }
        : HelpPaginateBotState).current_cog_page
        < (({ mapping := [], cog_pages := [none, none, none], current_cog_page := 2 }
        : HelpPaginateBotState).cog_pages.length : Int))
    ∧ (0 ≤ previous_cog_target
          { mapping := [], cog_pages := [none, none, none], current_cog_page := 2 }
      ∧ previous_cog_target
          { mapping := [], cog_pages := [none, none, none], current_cog_page := 2 }
        < ((({ mapping := [], cog_pages := [none, none, none], current_cog_page := 2 }
          : HelpPaginateBotState).cog_pages.length : Int))
      ∧ 0 ≤ next_cog_target
          { mapping := [], cog_pages := [none, none, none], current_cog_page := 2 }
      ∧ next_cog_target
          { mapping := [], cog_pages := [none, none, none], current_cog_page := 2 }
        < ((({ mapping := [], cog_pages := [none, none, none], current_cog_page := 2 }
          : HelpPaginateBotState).cog_pages.length : Int))
      ∧ (switch_cog { mapping := [], cog_pages := [none, none, none], current_cog_page := 2 }
          (previous_cog_target
            { mapping := [], cog_pages := [none, none, none], current_cog_page := 2 })).current_cog_page
        = previous_cog_target
            { mapping := [], cog_pages := [none, none, none], current_cog_page := 2 }
      ∧ (switch_cog { mapping := [], cog_pages := [none, none, none], current_cog_page := 2 }
          (next_cog_target
            { mapping := [], cog_pages := [none, none, none], current_cog_page := 2 })).current_cog_page
        = next_cog_target
            { mapping := [], cog_pages := [none, none, none], current_cog_page := 2 }
      ∧ previous_cog_target
          { ({ mapping := [], cog_pages := [none, none, none], current_cog_page := 2 }
            : HelpPaginateBotState) with current_cog_page := 0 } = 0
      ∧ next_cog_target
          { ({ mapping := [], cog_pages := [none, none, none], current_cog_page := 2 }
            : HelpPaginateBotState) with
            current_cog_page :=
              ((({ mapping := [], cog_pages := [none, none, none], current_cog_page := 2 }
                : HelpPaginateBotState).cog_pages.length : Int)) - 1 }
        = ((({ mapping := [], cog_pages := [none, none, none], current_cog_page := 2 }
            : HelpPaginateBotState).cog_pages.length : Int)) - 1) :=
  ⟨⟨by decide, by decide, by decide⟩,
    cog_nav_targets_clamped
      { mapping := [], cog_pages := [none, none, none], current_cog_page := 2 }
      (by decide) (by decide) (by decide)⟩

/-- C10: the filtered mapping contains exactly the categories whose filtered
command list is non-empty — every value list in the result is non-empty, and
the key list is that of the input restricted to categories surviving the
filter, so a fully filtered-out category is absent. -/
theorem cog_filter_commands_spec (filter_fn : List Cmd → List Cmd)
    (mapping : List (Option Cog × List Cmd)) :
    cog_filter_commands filter_fn mapping
      = (mapping.map (fun p => (p.1, filter_fn p.2))).filter (fun p => !p.2.isEmpty)
    ∧ ((cog_filter_commands filter_fn mapping).all fun p => !p.2.isEmpty) = true
    ∧ (cog_filter_commands filter_fn mapping).map Prod.fst
      = (mapping.filter fun p => !(filter_fn p.2).isEmpty).map Prod.fst := by
  refine ⟨?_, ?_, ?_⟩
  · induction mapping with
    | nil => rfl
    | cons p rest ih =>
      obtain ⟨cog, cmds⟩ := p
      cases hf : (filter_fn cmds).isEmpty <;>
        simp [cog_filter_commands, List.filter_cons, hf, ih]
  · induction mapping with
    | nil => rfl
    | cons p rest ih =>
      obtain ⟨cog, cmds⟩ := p
      cases hf : (filter_fn cmds).isEmpty <;>
        simp [cog_filter_commands, hf, ih]
  · induction mapping with
    | nil => rfl
    | cons p rest ih =>
      obtain ⟨cog, cmds⟩ := p
      cases hf : (filter_fn cmds).isEmpty <;>
        simp [cog_filter_commands, List.filter_cons, hf, ih]

theorem bot_manip_default_items :
    (bot_manipulate_buttons initial_buttons default_pagination_buttons).items
      = [BtnRole.previous_button, BtnRole.next_button] := by
  decide

theorem nat_ceil_eq_one_iff (len n : Nat) (hn : 1 ≤ n) (hlen : 1 ≤ len) :
    (len + n - 1) / n = 1 ↔ len ≤ n := by
  have hsplit : len + n - 1 = (len - 1) + n := by omega
  rw [hsplit, Nat.add_div_right _ (by omega)]
  have hz : (len - 1) / n = 0 ↔ len - 1 < n :=
    Nat.div_eq_zero_iff (by omega)
  constructor
  · intro h
    have h0 : (len - 1) / n = 0 := by omega
    have := hz.mp h0
    omega
  · intro h
    have h0 : (len - 1) / n = 0 := Nat.div_eq_of_lt (by omega)
    omega

/-- C6: a `HelpMenuBot` built with the default button configuration has one
page exactly when the cogs fit in a single page; with one page every
navigation control is absent from its items, and with more than one page the
previous and next controls are present (they are exactly its button items). -/
theorem nav_buttons_presence (cogs : List (Option Cog)) (n : Nat) (h : 1 ≤ n) :
    (bot_max_pages cogs n = 1 ↔ cogs.length ≤ n)
    ∧ (help_menu_bot_buttons cogs n).items
      = (if 1 < bot_max_pages cogs n then [BtnRole.previous_button, BtnRole.next_button]
         else []) := by
  constructor
  · rw [bot_max_pages, pageSet_length cogs n h]
    cases hc : cogs with
    | nil => simp
    | cons x xs =>
      have hlen : 1 ≤ (x :: xs : List (Option Cog)).length := by simp
      simp only [List.isEmpty_cons, if_neg (by simp : ¬ false = true)]
      exact nat_ceil_eq_one_iff _ n h hlen
  · have hitems := bot_manip_default_items
    unfold help_menu_bot_buttons rem_navigation
    split_ifs with hmp
    · exact hitems
    · rw [show bot_navigation_buttons.foldl
          (fun s key =>
            match getattr_button key with
            | none => s
            | some role => { s with items := s.items.erase role })
          (bot_manipulate_buttons initial_buttons default_pagination_buttons)
        = { bot_manipulate_buttons initial_buttons default_pagination_buttons with
              items := (((bot_manipulate_buttons initial_buttons
                default_pagination_buttons).items.erase
                  BtnRole.previous_button).erase BtnRole.next_button) } from rfl]
      simp [hitems]

/-- Witness for C6: three categories at two per page give two pages, so the
previous and next controls are present. -/
theorem nav_buttons_presence_witness :
    1 ≤ 2
    ∧ ((bot_max_pages [none, none, none] 2 = 1 ↔ ([none, none, none] : List (Option Cog)).length ≤ 2)
      ∧ (help_menu_bot_buttons [none, none, none] 2).items
        = (if 1 < bot_max_pages [none, none, none] 2
           then [BtnRole.previous_button, BtnRole.next_button]
           else [])) :=
  ⟨by decide, nav_buttons_presence [none, none, none] 2 (by decide)⟩

/-- C9 counterexample: in `HelpMenuBot`, mapping the stop role to a real button
descriptor does not keep the control — the role is removed from the view
anyway, so a descriptor-mapped role does not always keep its behaviour. -/
theorem bot_descriptor_role_removed :
    BtnRole.stop_button ∉
      (bot_manipulate_buttons initial_buttons
        [("stop_button", some { underlying := 7, row := none })]).items := by
  decide

theorem getattr_button_eq_some {key : String} {role : BtnRole}
    (h : getattr_button key = some role) : key = role_key role := by
  unfold getattr_button at h
  split_ifs at h with c1 c2 c3 c4 c5
  · injection h with h2; subst h2; exact c1
  · injection h with h2; subst h2; exact c2
  · injection h with h2; subst h2; exact c3
  · injection h with h2; subst h2; exact c4
  · injection h with h2; subst h2; exact c5

theorem getattr_role_key (role : BtnRole) : getattr_button (role_key role) = some role := by
  cases role <;> rfl

theorem role_key_mem_remove (role : BtnRole) : role_key role ∈ bot_remove_buttons := by
  cases role <;> decide

theorem role_key_mem_nav_iff (role : BtnRole) :
    role_key role ∈ bot_navigation_buttons
      ↔ (role = BtnRole.previous_button ∨ role = BtnRole.next_button) := by
  cases role <;> simp [role_key, bot_navigation_buttons]

theorem cog_entry_keep (st : PagerButtons) (key : String) (value : Option Btn)
    (role : BtnRole) (h : getattr_button key ≠ some role) :
    (cog_manipulate_entry st key value).btn role = st.btn role
    ∧ (role ∈ (cog_manipulate_entry st key value).items ↔ role ∈ st.items) := by
  unfold cog_manipulate_entry
  cases hg : getattr_button key with
  | none => exact ⟨rfl, Iff.rfl⟩
  | some role2 =>
    have hne : role ≠ role2 := fun he => h (by rw [he]; exact hg)
    cases value with
    | none =>
      refine ⟨rfl, ?_⟩
      simp only
      exact List.mem_erase_of_ne hne
    | some v =>
      constructor
      · simp only
        rw [Function.update_noteq hne]
      · simp only [List.mem_append, List.mem_singleton]
        rw [List.mem_erase_of_ne hne]
        constructor
        · rintro (hin | he)
          · exact hin
          · exact absurd he hne
        · exact fun hin => Or.inl hin

theorem cog_entry_nodup (st : PagerButtons) (key : String) (value : Option Btn)
    (h : st.items.Nodup) : (cog_manipulate_entry st key value).items.Nodup := by
  unfold cog_manipulate_entry
  cases hg : getattr_button key with
  | none => exact h
  | some role2 =>
    cases value with
    | none => exact h.erase role2
    | some v =>
      simp only [List.nodup_append, List.nodup_singleton]
      refine ⟨h.erase role2, trivial, ?_⟩
      intro a ha hb
      simp only [List.mem_singleton] at hb
      subst hb
      exact (List.Nodup.mem_erase_iff h).mp ha |>.1 rfl

theorem cog_entry_apply (st : PagerButtons) (role : BtnRole) (v? : Option Btn)
    (h : st.items.Nodup) :
    (v? = none → role ∉ (cog_manipulate_entry st (role_key role) v?).items)
    ∧ (∀ v, v? = some v →
        role ∈ (cog_manipulate_entry st (role_key role) v?).items
        ∧ (cog_manipulate_entry st (role_key role) v?).btn role
            = merge_button (st.btn role) v) := by
  unfold cog_manipulate_entry
  rw [getattr_role_key]
  constructor
  · intro hv
    subst hv
    simp only
    intro hmem
    exact ((List.Nodup.mem_erase_iff h).mp hmem).1 rfl
  · intro v hv
    subst hv
    constructor
    · simp
    · simp only
      rw [Function.update_same]

theorem nav_subset_remove (k : String) (h : k ∈ bot_navigation_buttons) :
    k ∈ bot_remove_buttons :=
  List.mem_append_right _ h

theorem bot_entry_keep (st : PagerButtons) (key : String) (value : Option Btn)
    (role : BtnRole) (h : getattr_button key ≠ some role) :
    (bot_manipulate_entry st key value).btn role = st.btn role
    ∧ (role ∈ (bot_manipulate_entry st key value).items ↔ role ∈ st.items) := by
  unfold bot_manipulate_entry
  cases hg : getattr_button key with
  | none => exact ⟨rfl, Iff.rfl⟩
  | some role2 =>
    have hne : role ≠ role2 := fun he => h (by rw [he]; exact hg)
    have hmemapp : ∀ l : List BtnRole, role ∈ l ++ [role2] ↔ role ∈ l := by
      intro l
      simp only [List.mem_append, List.mem_singleton]
      exact ⟨fun hin => hin.elim id (fun he => absurd he hne), fun hin => Or.inl hin⟩
    cases value with
    | none =>
      simp only
      split_ifs with hr
      · exact ⟨rfl, List.mem_erase_of_ne hne⟩
      · exact ⟨rfl, Iff.rfl⟩
    | some v =>
      simp only
      split_ifs with hnav hr hr
      · exact ⟨Function.update_noteq hne _ _,
          (hmemapp _).trans (List.mem_erase_of_ne hne)⟩
      · exact ⟨Function.update_noteq hne _ _, hmemapp _⟩
      · exact ⟨rfl, List.mem_erase_of_ne hne⟩
      · exact ⟨rfl, Iff.rfl⟩

theorem bot_entry_nodup (st : PagerButtons) (key : String) (value : Option Btn)
    (h : st.items.Nodup) : (bot_manipulate_entry st key value).items.Nodup := by
  unfold bot_manipulate_entry
  cases hg : getattr_button key with
  | none => exact h
  | some role2 =>
    have happ : ∀ l : List BtnRole, l.Nodup → role2 ∉ l → (l ++ [role2]).Nodup := by
      intro l hl hnl
      simp only [List.nodup_append, List.nodup_singleton]
      refine ⟨hl, trivial, ?_⟩
      intro a ha hb
      simp only [List.mem_singleton] at hb
      subst hb
      exact hnl ha
    cases value with
    | none =>
      simp only
      split_ifs with hr
      · exact h.erase role2
      · exact h
    | some v =>
      simp only
      split_ifs with hnav hr hr
      · exact happ _ (h.erase role2) (fun hm => ((List.Nodup.mem_erase_iff h).mp hm).1 rfl)
      · -- key in the navigation list but not in the removal list: impossible
        exact absurd (nav_subset_remove key hnav) hr
      · exact h.erase role2
      · exact h

theorem bot_entry_apply (st : PagerButtons) (role : BtnRole) (v? : Option Btn)
    (h : st.items.Nodup) :
    (v? = none → role ∉ (bot_manipulate_entry st (role_key role) v?).items)
    ∧ (∀ v, v? = some v →
        (role_key role ∈ bot_navigation_buttons →
          role ∈ (bot_manipulate_entry st (role_key role) v?).items
          ∧ (bot_manipulate_entry st (role_key role) v?).btn role
              = merge_button (st.btn role) v)
        ∧ (role_key role ∉ bot_navigation_buttons →
          role ∉ (bot_manipulate_entry st (role_key role) v?).items)) := by
  unfold bot_manipulate_entry
  rw [getattr_role_key]
  have hrem := role_key_mem_remove role
  constructor
  · intro hv
    subst hv
    simp only
    split_ifs
    intro hmem
    exact ((List.Nodup.mem_erase_iff h).mp hmem).1 rfl
  · intro v hv
    subst hv
    constructor
    · intro hnav
      simp only
      split_ifs
      refine ⟨by simp, ?_⟩
      simp only
      rw [Function.update_same]
    · intro hnav
      simp only
      split_ifs
      intro hmem
      exact ((List.Nodup.mem_erase_iff h).mp hmem).1 rfl

theorem cog_fold_keep : ∀ (source : List (String × Option Btn)) (st : PagerButtons)
    (role : BtnRole), (∀ k ∈ source.map Prod.fst, getattr_button k ≠ some role) →
    (cog_manipulate_buttons st source).btn role = st.btn role
    ∧ (role ∈ (cog_manipulate_buttons st source).items ↔ role ∈ st.items) := by
  intro source
  induction source with
  | nil => intro st role _; exact ⟨rfl, Iff.rfl⟩
  | cons p rest ih =>
    intro st role hk
    obtain ⟨key, value⟩ := p
    have hk1 : getattr_button key ≠ some role := hk key (by simp)
    have hkr : ∀ k ∈ rest.map Prod.fst, getattr_button k ≠ some role :=
      fun k hm => hk k (by simp [hm])
    have h1 := cog_entry_keep st key value role hk1
    have h2 := ih (cog_manipulate_entry st key value) role hkr
    have hfold : cog_manipulate_buttons st ((key, value) :: rest)
        = cog_manipulate_buttons (cog_manipulate_entry st key value) rest := rfl
    rw [hfold]
    exact ⟨h2.1.trans h1.1, h2.2.trans h1.2⟩

theorem bot_fold_keep : ∀ (source : List (String × Option Btn)) (st : PagerButtons)
    (role : BtnRole), (∀ k ∈ source.map Prod.fst, getattr_button k ≠ some role) →
    (bot_manipulate_buttons st source).btn role = st.btn role
    ∧ (role ∈ (bot_manipulate_buttons st source).items ↔ role ∈ st.items) := by
  intro source
  induction source with
  | nil => intro st role _; exact ⟨rfl, Iff.rfl⟩
  | cons p rest ih =>
    intro st role hk
    obtain ⟨key, value⟩ := p
    have hk1 : getattr_button key ≠ some role := hk key (by simp)
    have hkr : ∀ k ∈ rest.map Prod.fst, getattr_button k ≠ some role :=
      fun k hm => hk k (by simp [hm])
    have h1 := bot_entry_keep st key value role hk1
    have h2 := ih (bot_manipulate_entry st key value) role hkr
    have hfold : bot_manipulate_buttons st ((key, value) :: rest)
        = bot_manipulate_buttons (bot_manipulate_entry st key value) rest := rfl
    rw [hfold]
    exact ⟨h2.1.trans h1.1, h2.2.trans h1.2⟩

theorem cog_fold_spec : ∀ (source : List (String × Option Btn)) (st : PagerButtons)
    (role : BtnRole) (v? : Option Btn),
    (source.map Prod.fst).Nodup → st.items.Nodup → (role_key role, v?) ∈ source →
    (v? = none → role ∉ (cog_manipulate_buttons st source).items)
    ∧ (∀ v, v? = some v →
        role ∈ (cog_manipulate_buttons st source).items
        ∧ (cog_manipulate_buttons st source).btn role = merge_button (st.btn role) v) := by
  intro source
  induction source with
  | nil =>
    intro st role v? _ _ hmem
    simp at hmem
  | cons p rest ih =>
    intro st role v? hkeys hnodup hmem
    obtain ⟨key, value⟩ := p
    simp only [List.map_cons, List.nodup_cons] at hkeys
    rw [List.mem_cons] at hmem
    rcases hmem with heq | hmem
    · have hk : role_key role = key := congrArg Prod.fst heq
      have hv : v? = value := congrArg Prod.snd heq
      subst hk
      subst hv
      have hrest : ∀ k ∈ rest.map Prod.fst, getattr_button k ≠ some role := by
        intro k hkm hg
        have hke := getattr_button_eq_some hg
        subst hke
        exact hkeys.1 hkm
      have happ := cog_entry_apply st role v? hnodup
      have hkeep := cog_fold_keep rest (cog_manipulate_entry st (role_key role) v?) role hrest
      have hfold : cog_manipulate_buttons st ((role_key role, v?) :: rest)
          = cog_manipulate_buttons (cog_manipulate_entry st (role_key role) v?) rest := rfl
      rw [hfold]
      constructor
      · intro hveq hmem2
        exact happ.1 hveq (hkeep.2.mp hmem2)
      · intro v hveq
        exact ⟨hkeep.2.mpr (happ.2 v hveq).1, hkeep.1.trans (happ.2 v hveq).2⟩
    · have hkne : key ≠ role_key role := by
        intro he
        subst he
        exact hkeys.1 (List.mem_map_of_mem Prod.fst hmem)
      have hg : getattr_button key ≠ some role :=
        fun hg2 => hkne (getattr_button_eq_some hg2)
      have hkeep1 := cog_entry_keep st key value role hg
      have hnodup1 := cog_entry_nodup st key value hnodup
      have ihres := ih (cog_manipulate_entry st key value) role v? hkeys.2 hnodup1 hmem
      have hfold : cog_manipulate_buttons st ((key, value) :: rest)
          = cog_manipulate_buttons (cog_manipulate_entry st key value) rest := rfl
      rw [hfold]
      refine ⟨ihres.1, ?_⟩
      intro v hveq
      refine ⟨(ihres.2 v hveq).1, ?_⟩
      rw [(ihres.2 v hveq).2, hkeep1.1]

theorem bot_fold_spec : ∀ (source : List (String × Option Btn)) (st : PagerButtons)
    (role : BtnRole) (v? : Option Btn),
    (source.map Prod.fst).Nodup → st.items.Nodup → (role_key role, v?) ∈ source →
    (v? = none → role ∉ (bot_manipulate_buttons st source).items)
    ∧ (∀ v, v? = some v →
        (role_key role ∈ bot_navigation_buttons →
          role ∈ (bot_manipulate_buttons st source).items
          ∧ (bot_manipulate_buttons st source).btn role = merge_button (st.btn role) v)
        ∧ (role_key role ∉ bot_navigation_buttons →
          role ∉ (bot_manipulate_buttons st source).items)) := by
  intro source
  induction source with
  | nil =>
    intro st role v? _ _ hmem
    simp at hmem
  | cons p rest ih =>
    intro st role v? hkeys hnodup hmem
    obtain ⟨key, value⟩ := p
    simp only [List.map_cons, List.nodup_cons] at hkeys
    rw [List.mem_cons] at hmem
    rcases hmem with heq | hmem
    · have hk : role_key role = key := congrArg Prod.fst heq
      have hv : v? = value := congrArg Prod.snd heq
      subst hk
      subst hv
      have hrest : ∀ k ∈ rest.map Prod.fst, getattr_button k ≠ some role := by
        intro k hkm hg
        have hke := getattr_button_eq_some hg
        subst hke
        exact hkeys.1 hkm
      have happ := bot_entry_apply st role v? hnodup
      have hkeep := bot_fold_keep rest (bot_manipulate_entry st (role_key role) v?) role hrest
      have hfold : bot_manipulate_buttons st ((role_key role, v?) :: rest)
          = bot_manipulate_buttons (bot_manipulate_entry st (role_key role) v?) rest := rfl
      rw [hfold]
      constructor
      · intro hveq hmem2
        exact happ.1 hveq (hkeep.2.mp hmem2)
      · intro v hveq
        constructor
        · intro hnav
          exact ⟨hkeep.2.mpr ((happ.2 v hveq).1 hnav).1,
            hkeep.1.trans ((happ.2 v hveq).1 hnav).2⟩
        · intro hnav hmem2
          exact (happ.2 v hveq).2 hnav (hkeep.2.mp hmem2)
    · have hkne : key ≠ role_key role := by
        intro he
        subst he
        exact hkeys.1 (List.mem_map_of_mem Prod.fst hmem)
      have hg : getattr_button key ≠ some role :=
        fun hg2 => hkne (getattr_button_eq_some hg2)
      have hkeep1 := bot_entry_keep st key value role hg
      have hnodup1 := bot_entry_nodup st key value hnodup
      have ihres := ih (bot_manipulate_entry st key value) role v? hkeys.2 hnodup1 hmem
      have hfold : bot_manipulate_buttons st ((key, value) :: rest)
          = bot_manipulate_buttons (bot_manipulate_entry st key value) rest := rfl
      rw [hfold]
      refine ⟨ihres.1, ?_⟩
      intro v hveq
      constructor
      · intro hnav
        refine ⟨((ihres.2 v hveq).1 hnav).1, ?_⟩
        rw [((ihres.2 v hveq).1 hnav).2, hkeep1.1]
      · exact (ihres.2 v hveq).2

/-- C9 amended: for a control-binding mapping with distinct keys applied over a
duplicate-free view, a key naming no control role has no effect; a role mapped
to `None` ends up absent from the view (both in `HelpMenuCog` and in
`HelpMenuBot`); a role mapped to a descriptor keeps its behaviour (its slot)
with the descriptor appearance and, when given, its row — in `HelpMenuCog` for
every role, in `HelpMenuBot` only for the navigation roles, while the start,
stop and end roles are removed there even when mapped to a descriptor. -/
theorem control_binding_merge_amended
    (source : List (String × Option Btn)) (st : PagerButtons) (role : BtnRole)
    (v? : Option Btn) (ukey : String) (uval : Option Btn)
    (hkeys : (source.map Prod.fst).Nodup) (hitems : st.items.Nodup)
    (hmem : (role_key role, v?) ∈ source)
    (hukey : getattr_button ukey = none) :
    cog_manipulate_entry st ukey uval = st
    ∧ bot_manipulate_entry st ukey uval = st
    ∧ (v? = none →
        role ∉ (cog_manipulate_buttons st source).items
        ∧ role ∉ (bot_manipulate_buttons st source).items)
    ∧ (∀ v, v? = some v →
        (role ∈ (cog_manipulate_buttons st source).items
          ∧ (cog_manipulate_buttons st source).btn role = merge_button (st.btn role) v)
        ∧ (role_key role ∈ bot_navigation_buttons →
            role ∈ (bot_manipulate_buttons st source).items
            ∧ (bot_manipulate_buttons st source).btn role = merge_button (st.btn role) v)
        ∧ (role_key role ∉ bot_navigation_buttons →
            role ∉ (bot_manipulate_buttons st source).items)) := by
  have hc := cog_fold_spec source st role v? hkeys hitems hmem
  have hb := bot_fold_spec source st role v? hkeys hitems hmem
  refine ⟨?_, ?_, ?_, ?_⟩
  · unfold cog_manipulate_entry
    rw [hukey]
  · unfold bot_manipulate_entry
    rw [hukey]
  · exact fun hv => ⟨hc.1 hv, hb.1 hv⟩
  · exact fun v hv => ⟨hc.2 v hv, (hb.2 v hv).1, (hb.2 v hv).2⟩

/-- Witness for C9 on the default configuration, the previous-button role and
the unknown key `foo`. -/
theorem control_binding_merge_amended_witness :
    ((default_pagination_buttons.map Prod.fst).Nodup
      ∧ initial_buttons.items.Nodup
      ∧ (role_key BtnRole.previous_button, some { underlying := 2, row := some 1 })
          ∈ default_pagination_buttons
      ∧ getattr_button "foo" = none)
    ∧ (cog_manipulate_entry initial_buttons "foo" none = initial_buttons
      ∧ bot_manipulate_entry initial_buttons "foo" none = initial_buttons
      ∧ ((some { underlying := 2, row := some 1 } : Option Btn) = none →
          BtnRole.previous_button
            ∉ (cog_manipulate_buttons initial_buttons default_pagination_buttons).items
          ∧ BtnRole.previous_button
            ∉ (bot_manipulate_buttons initial_buttons default_pagination_buttons).items)
      ∧ (∀ v, (some { underlying := 2, row := some 1 } : Option Btn) = some v →
          (BtnRole.previous_button
              ∈ (cog_manipulate_buttons initial_buttons default_pagination_buttons).items
            ∧ (cog_manipulate_buttons initial_buttons default_pagination_buttons).btn
                BtnRole.previous_button
                = merge_button (initial_buttons.btn BtnRole.previous_button) v)
          ∧ (role_key BtnRole.previous_button ∈ bot_navigation_buttons →
              BtnRole.previous_button
                ∈ (bot_manipulate_buttons initial_buttons default_pagination_buttons).items
              ∧ (bot_manipulate_buttons initial_buttons default_pagination_buttons).btn
                  BtnRole.previous_button
                  = merge_button (initial_buttons.btn BtnRole.previous_button) v)
          ∧ (role_key BtnRole.previous_button ∉ bot_navigation_buttons →
              BtnRole.previous_button
                ∉ (bot_manipulate_buttons initial_buttons default_pagination_buttons).items))) :=
  ⟨⟨by decide, by decide, by decide, rfl⟩,
    control_binding_merge_amended default_pagination_buttons initial_buttons
      BtnRole.previous_button (some { underlying := 2, row := some 1 }) "foo" none
      (by decide) (by decide) (by decide) rfl⟩
